import Mathlib

/-!
Shallow embedding of the `togetherai-image-mcp-server` repository
(`src/index.ts`): a single MCP tool handler `generate_image` that validates
loosely-typed arguments, calls the Together AI image API, post-processes the
returned base64 images (conditional aspect-preserving resize), writes them to
disk, and returns per-image metadata.

Modelling conventions:
* JavaScript numbers are modelled as `ℚ` (NaN/Infinity are outside the model);
  JavaScript `||` defaulting treats `0` and `""` as falsy, which is modelled
  explicitly.
* `Math.round` is modelled as `⌊q + 1/2⌋` (round half toward +∞), which is
  JavaScript's rounding rule for finite values.
* JavaScript `String.prototype.replace` with a string pattern replaces only the
  first occurrence; it is modelled character-list-wise by `replaceFirst`.
* Effects (the outbound API call, directory creation, file writes, the
  `console.warn`, and the metadata re-read) are recorded in explicit traces.
  The environment (`CallEnv`) supplies everything the process reads from the
  outside world: the API response, per-image wall-clock timestamps, path
  resolution, and filesystem contents/failures.
-/

set_option maxRecDepth 100000

namespace TogetherMCP

/-- Decimal digit character for a digit value (values ≥ 9 give `9`;
only ever applied to `n % 10`). -/
def digitChar (d : ℕ) : Char :=
  match d with
  | 0 => '0'
  | 1 => '1'
  | 2 => '2'
  | 3 => '3'
  | 4 => '4'
  | 5 => '5'
  | 6 => '6'
  | 7 => '7'
  | 8 => '8'
  | _ => '9'

/-- Fuel-driven decimal digit list of a natural number (most significant
first); empty for `0`. Fuel is structural so the kernel can evaluate it. -/
def natStrAux : ℕ → ℕ → List Char
  | 0, _ => []
  | _ + 1, 0 => []
  | fuel + 1, n + 1 => natStrAux fuel ((n + 1) / 10) ++ [digitChar ((n + 1) % 10)]

/-- Decimal rendering of a natural number, modelling JavaScript template
interpolation of an integral number (`${timestamp}`, `${index}`). -/
def natStr (n : ℕ) : String :=
  if n = 0 then "0" else ⟨natStrAux n n⟩

/-- First-occurrence replacement on character lists: the semantics of
JavaScript `String.prototype.replace` with a plain-string pattern. -/
def replaceFirstAux (pat rep : List Char) : List Char → List Char
  | [] => []
  | c :: cs =>
    if pat.isPrefixOf (c :: cs) then rep ++ (c :: cs).drop pat.length
    else c :: replaceFirstAux pat rep cs

/-- JavaScript `s.replace(pat, rep)` for plain-string `pat` (first occurrence
only; unchanged when `pat` does not occur). -/
def replaceFirst (s pat rep : String) : String :=
  ⟨replaceFirstAux pat.data rep.data s.data⟩

/-- JavaScript `Math.round` on the rational model of JS numbers:
round half toward positive infinity. -/
def jsRound (q : ℚ) : ℤ := ⌊q + 1 / 2⌋

/-- Untyped JavaScript values, as far as the validator and handler observe
them. -/
inductive JSValue where
  | vUndefined : JSValue
  | vNull : JSValue
  | vBool : Bool → JSValue
  | vNum : ℚ → JSValue
  | vStr : String → JSValue
  | vArr : List JSValue → JSValue
  | vObj : List (String × JSValue) → JSValue

/-- Property lookup in an object's field list (first binding wins); absent
fields read as `undefined`. -/
def lookupField : List (String × JSValue) → String → JSValue
  | [], _ => .vUndefined
  | (k, v) :: rest, key => if k = key then v else lookupField rest key

/-- JavaScript property access `v.key` (guarded by the validator so it is only
reached on non-null objects; arrays and primitives read every named field as
`undefined`). -/
def getField : JSValue → String → JSValue
  | .vObj fs, key => lookupField fs key
  | _, _ => .vUndefined

/-- `typeof v === 'object'` (true for `null`, arrays and plain objects). -/
def isObjectType : JSValue → Bool
  | .vNull => true
  | .vArr _ => true
  | .vObj _ => true
  | _ => false

/-- `typeof v === 'string'`. -/
def isStringType : JSValue → Bool
  | .vStr _ => true
  | _ => false

/-- `typeof v === 'number'`. -/
def isNumberType : JSValue → Bool
  | .vNum _ => true
  | _ => false

/-- `v === undefined`. -/
def isUndefinedJS : JSValue → Bool
  | .vUndefined => true
  | _ => false

/-- `v === null`. -/
def isNullJS : JSValue → Bool
  | .vNull => true
  | _ => false

/-- Strict equality of a JS value with a string literal (as used by
`Array.prototype.includes` over an array of string literals). -/
def strictEqStr (v : JSValue) (s : String) : Bool :=
  match v with
  | .vStr t => t = s
  | _ => false

/-- `isValidGenerateImageArgs` from `src/index.ts` lines 31–44, conjunct for
conjunct. -/
def isValidGenerateImageArgs (args : JSValue) : Bool :=
  isObjectType args &&
  !isNullJS args &&
  isStringType (getField args "prompt") &&
  (isUndefinedJS (getField args "model") || isStringType (getField args "model")) &&
  (isUndefinedJS (getField args "width") || isNumberType (getField args "width")) &&
  (isUndefinedJS (getField args "height") || isNumberType (getField args "height")) &&
  (isUndefinedJS (getField args "steps") || isNumberType (getField args "steps")) &&
  (isUndefinedJS (getField args "n") || isNumberType (getField args "n")) &&
  (isUndefinedJS (getField args "outputDir") || isStringType (getField args "outputDir")) &&
  (isUndefinedJS (getField args "format") ||
    (strictEqStr (getField args "format") "png" ||
     strictEqStr (getField args "format") "jpg" ||
     strictEqStr (getField args "format") "svg"))

/-- Output format union `'png' | 'jpg' | 'svg'`. -/
inductive ImgFormat where
  | png : ImgFormat
  | jpg : ImgFormat
  | svg : ImgFormat
deriving DecidableEq

/-- File extension string of a format. -/
def extString : ImgFormat → String
  | .png => "png"
  | .jpg => "jpg"
  | .svg => "svg"

/-- `args.key || default` for a numeric field (JS `||`: `0` is falsy, so a
provided `0` falls back to the default; after validation the field is either
`undefined` or a number). -/
def numField (args : JSValue) (key : String) (d : ℚ) : ℚ :=
  match getField args key with
  | .vNum x => if x = 0 then d else x
  | _ => d

/-- `args.key || default` for a string field (JS `||`: `""` is falsy). -/
def strField (args : JSValue) (key : String) (d : String) : String :=
  match getField args key with
  | .vStr s => if s = "" then d else s
  | _ => d

/-- `args.prompt`, used without defaulting (validation guarantees a string). -/
def promptString (args : JSValue) : String :=
  match getField args "prompt" with
  | .vStr s => s
  | _ => ""

/-- `args.format || 'png'` mapped into the format union (validation
guarantees the field is `undefined` or one of the three literals). -/
def formatField (args : JSValue) : ImgFormat :=
  match getField args "format" with
  | .vStr "jpg" => ImgFormat.jpg
  | .vStr "svg" => ImgFormat.svg
  | _ => ImgFormat.png

/-- A decoded raster image; only its pixel dimensions are observable through
`sharp` in this program. -/
structure Image where
  width : ℕ
  height : ℕ
deriving DecidableEq

/-- The encoder applied before `toFile`: `sharp(buffer).png()` or
`sharp(buffer).jpeg({ quality: 90 })`. -/
inductive Encoding where
  | pngEnc : Encoding
  | jpegEnc : ℕ → Encoding
deriving DecidableEq

/-- One `toFile` call: target path, encoder, and the image content written. -/
structure FileWrite where
  path : String
  enc : Encoding
  content : Image
deriving DecidableEq

/-- The parameter object passed to `together.images.create` (lines 166–174). -/
structure ApiParams where
  model : String
  prompt : String
  width : ℚ
  height : ℚ
  steps : ℚ
  n : ℚ
  responseFormat : String
deriving DecidableEq

/-- Everything the handler reads from the outside world during one call:
the API outcome (each returned payload is either a decodable image or an
error raised at its first use by `sharp`), per-image `Date.now()` values,
`path.resolve`, the working directory, directory existence, per-path write
failures, and pre-existing readable files. -/
structure CallEnv where
  cwd : String
  resolvePath : String → String
  dirExists : String → Bool
  apiResult : Except String (List (Except String Image))
  timeAt : ℕ → ℕ
  writeError : String → Option String
  existingFile : String → Option Image

/-- Effect trace of one per-image closure (lines 187–258): the
`sharp(...).resize` invocation with its target, the attempted `toFile`, the
`console.warn`, and the path of the final metadata re-read. -/
structure ImageTrace where
  resizeCall : Option (ℚ × ℚ)
  write : Option FileWrite
  warned : Bool
  readPath : Option String
deriving DecidableEq

/-- One entry of the returned results array (lines 246–257): reported path and
name, `dimensions.original` (the API-bound clamped dimensions) and
`dimensions.final` (from the metadata re-read). -/
structure ProcessedImageResult where
  filepath : String
  filename : String
  originalWidth : ℚ
  originalHeight : ℚ
  finalWidth : ℕ
  finalHeight : ℕ
deriving DecidableEq

/-- Errors surfaced to the MCP caller by this handler. -/
inductive HandlerError where
  | invalidParams : HandlerError
  | internalError : String → HandlerError
deriving DecidableEq

/-- Effect trace of a whole call: the outbound API call (if reached), the
`mkdirSync` (if the directory was missing), and the per-image traces in
`response.data` order. -/
structure CallTrace where
  apiCall : Option ApiParams
  mkdirPath : Option String
  images : List ImageTrace

/-- Per-call configuration shared by every per-image closure. -/
structure ImgCfg where
  requestWidth : ℚ
  requestHeight : ℚ
  apiWidth : ℚ
  apiHeight : ℚ
  fmt : ImgFormat
  outDir : String

/-- `sharp(buffer).resize(targetWidth, targetHeight, { fit: 'contain', ... })`:
sharp accepts only positive integral dimensions (otherwise it throws), and a
contain-fit resize against a background produces exactly the target size. -/
def sharpResize (tw th : ℚ) : Except String Image :=
  if tw.den = 1 ∧ 0 < tw.num ∧ th.den = 1 ∧ 0 < th.num then
    Except.ok ⟨tw.num.toNat, th.num.toNat⟩
  else
    Except.error "Expected positive integer for width"

/-- `toFile` target per format: the format switch of lines 228–244 writes
`png` and `jpg` at `filepath`, and `svg` at
`filepath.replace('.svg', '.png')` (first occurrence). -/
def writePathOf : ImgFormat → String → String
  | .png, filepath => filepath
  | .jpg, filepath => filepath
  | .svg, filepath => replaceFirst filepath ".svg" ".png"

/-- Encoder per format: `png` and `svg` go through `sharp(...).png()`,
`jpg` through `sharp(...).jpeg({ quality: 90 })`. -/
def encOf : ImgFormat → Encoding
  | .png => Encoding.pngEnc
  | .jpg => Encoding.jpegEnc 90
  | .svg => Encoding.pngEnc

/-- Line 223: `image_${timestamp}_${index}.${format}`. -/
def filenameOf (fmt : ImgFormat) (ts index : ℕ) : String :=
  "image_" ++ natStr ts ++ "_" ++ natStr index ++ "." ++ extString fmt

/-- Line 224: `path.join(outputDir, filename)` for a resolved directory and a
plain filename. -/
def filepathOf (outDir : String) (fmt : ImgFormat) (ts index : ℕ) : String :=
  outDir ++ "/" ++ filenameOf fmt ts index

/-- Lines 220–257: the format switch with its `toFile` target, the
`console.warn` for svg, and the metadata re-read of `filepath`.
The re-read sees this closure's own write when it targeted `filepath` and
succeeded, else any pre-existing file at `filepath`. -/
def persistStage (cfg : ImgCfg) (env : CallEnv) (filepath filename : String)
    (resizeCall : Option (ℚ × ℚ)) (buf : Image) :
    ImageTrace × Except String ProcessedImageResult :=
  let writePath : String := writePathOf cfg.fmt filepath
  let enc : Encoding := encOf cfg.fmt
  let fw : FileWrite := ⟨writePath, enc, buf⟩
  match env.writeError writePath with
  | some m => (⟨resizeCall, some fw, false, none⟩, Except.error m)
  | none =>
    let warned : Bool :=
      match cfg.fmt with
      | .svg => true
      | _ => false
    match (if writePath = filepath then some buf else env.existingFile filepath) with
    | some finalImg =>
      (⟨resizeCall, some fw, warned, some filepath⟩,
       Except.ok ⟨filepath, filename, cfg.apiWidth, cfg.apiHeight,
                  finalImg.width, finalImg.height⟩)
    | none =>
      (⟨resizeCall, some fw, warned, some filepath⟩,
       Except.error ("Input file is missing: " ++ filepath))

/-- Lines 194–209: true decoded dimensions (`metadata.width || 0`),
`aspectRatio = originalWidth / originalHeight`, the initial
`targetWidth/targetHeight = requestWidth/requestHeight`, and the two
sequential `if` reassignments (the height branch overwrites the width
branch's assignments when both requested dimensions are below 256). -/
def computeTarget (cfg : ImgCfg) (img : Image) : ℚ × ℚ :=
  let originalWidth : ℕ := img.width
  let originalHeight : ℕ := img.height
  let aspect : ℚ := (originalWidth : ℚ) / (originalHeight : ℚ)
  let target : ℚ × ℚ :=
    if decide (cfg.requestWidth < 256) then
      (cfg.requestWidth, ((jsRound (cfg.requestWidth / aspect) : ℤ) : ℚ))
    else
      (cfg.requestWidth, cfg.requestHeight)
  if decide (cfg.requestHeight < 256) then
    (((jsRound (cfg.requestHeight * aspect) : ℤ) : ℚ), cfg.requestHeight)
  else
    target

/-- One per-image closure (lines 187–258). A payload of `Except.error m`
models a buffer that `sharp` rejects with message `m` at its first use
(`metadata()` in the resize branch, otherwise the encode in the switch). -/
def processImage (cfg : ImgCfg) (env : CallEnv) (index : ℕ)
    (payload : Except String Image) :
    ImageTrace × Except String ProcessedImageResult :=
  let ts := env.timeAt index
  let filename := filenameOf cfg.fmt ts index
  let filepath := filepathOf cfg.outDir cfg.fmt ts index
  if decide (cfg.requestWidth < 256) || decide (cfg.requestHeight < 256) then
    match payload with
    | .error m => (⟨none, none, false, none⟩, Except.error m)
    | .ok img =>
      match sharpResize (computeTarget cfg img).1 (computeTarget cfg img).2 with
      | .error m => (⟨some (computeTarget cfg img), none, false, none⟩, Except.error m)
      | .ok buf => persistStage cfg env filepath filename (some (computeTarget cfg img)) buf
  else
    match payload with
    | .error m => (⟨none, none, false, none⟩, Except.error m)
    | .ok buf => persistStage cfg env filepath filename none buf

/-- `response.data.map(async (result, index) => ...)`: each payload is
processed with its position as `index`. -/
def processAll (cfg : ImgCfg) (env : CallEnv) :
    ℕ → List (Except String Image) →
    List (ImageTrace × Except String ProcessedImageResult)
  | _, [] => []
  | i, p :: ps => processImage cfg env i p :: processAll cfg env (i + 1) ps

/-- `Promise.all`: all values in order on success, else the first rejection. -/
def collectAll : List (Except String α) → Except String (List α)
  | [] => Except.ok []
  | .error m :: _ => Except.error m
  | .ok b :: rest => (collectAll rest).map (fun l => b :: l)

/-- Lines 176–179: `args.outputDir ? path.resolve(args.outputDir)
: path.join(process.cwd(), 'output')` (an empty string is falsy). -/
def outDirOf (args : JSValue) (env : CallEnv) : String :=
  match getField args "outputDir" with
  | .vStr s => if s = "" then env.cwd ++ "/output" else env.resolvePath s
  | _ => env.cwd ++ "/output"

/-- The `catch` wrapper of line 272:
`Image generation failed: ${error?.message || 'Unknown error'}`. -/
def wrapMessage (m : String) : String :=
  "Image generation failed: " ++ (if m = "" then "Unknown error" else m)

/-- Trace of a call that never got past validation: no API call, no mkdir,
no per-image processing. -/
def emptyTrace : CallTrace := ⟨none, none, []⟩

/-- Lines 158–174: requested dimensions (`args.width || 1024`,
`args.height || 768`), the upward clamp `Math.max(256, ·)`, and the parameter
object passed to `together.images.create`. -/
def apiParamsOf (args : JSValue) : ApiParams :=
  ⟨strField args "model" "black-forest-labs/FLUX.1.1-pro",
   promptString args,
   max 256 (numField args "width" 1024),
   max 256 (numField args "height" 768),
   numField args "steps" 28, numField args "n" 1, "base64"⟩

/-- The per-call configuration captured by every per-image closure: requested
(pre-clamp, defaulted) dimensions, clamped API dimensions, format, and the
resolved output directory. -/
def cfgOf (args : JSValue) (env : CallEnv) : ImgCfg :=
  ⟨numField args "width" 1024, numField args "height" 768,
   max 256 (numField args "width" 1024), max 256 (numField args "height" 768),
   formatField args, outDirOf args env⟩

/-- The `generate_image` branch of the CallTool handler (lines 149–274),
returning the effect trace together with the RPC outcome. -/
def handleCall (rawArgs : Option JSValue) (env : CallEnv) :
    CallTrace × Except HandlerError (List ProcessedImageResult) :=
  match rawArgs with
  | none => (emptyTrace, Except.error HandlerError.invalidParams)
  | some args =>
    if isValidGenerateImageArgs args then
      let params : ApiParams := apiParamsOf args
      match env.apiResult with
      | .error m =>
        (⟨some params, none, []⟩,
         Except.error (HandlerError.internalError (wrapMessage m)))
      | .ok payloads =>
        let outDir := outDirOf args env
        let mkdirPath := if env.dirExists outDir then none else some outDir
        let outs := processAll (cfgOf args env) env 0 payloads
        let trace : CallTrace := ⟨some params, mkdirPath, outs.map Prod.fst⟩
        match collectAll (outs.map Prod.snd) with
        | .ok results => (trace, Except.ok results)
        | .error m =>
          (trace, Except.error (HandlerError.internalError (wrapMessage m)))
    else
      (emptyTrace, Except.error HandlerError.invalidParams)

/-- Decidability of `Except` equality (used only to evaluate the model on
concrete inputs). -/
instance {ε α : Type} [DecidableEq ε] [DecidableEq α] : DecidableEq (Except ε α) :=
  fun a b =>
    match a, b with
    | .error x, .error y =>
      if h : x = y then .isTrue (by rw [h]) else .isFalse (by simp [h])
    | .error _, .ok _ => .isFalse (by simp)
    | .ok _, .error _ => .isFalse (by simp)
    | .ok x, .ok y =>
      if h : x = y then .isTrue (by rw [h]) else .isFalse (by simp [h])

/-- The validator's contract as the specification words it: a non-null object
whose `prompt` is a string; whose `model` and `outputDir`, if present, are
strings; whose `width`, `height`, `steps` and `n`, if present, are numbers
(no bounds checks); and whose `format`, if present, is one of the literal
strings `"png"`, `"jpg"`, `"svg"`. -/
def specValidShape (v : JSValue) : Bool :=
  (isObjectType v && !isNullJS v) &&
  isStringType (getField v "prompt") &&
  (isUndefinedJS (getField v "model") || isStringType (getField v "model")) &&
  (isUndefinedJS (getField v "outputDir") || isStringType (getField v "outputDir")) &&
  (isUndefinedJS (getField v "width") || isNumberType (getField v "width")) &&
  (isUndefinedJS (getField v "height") || isNumberType (getField v "height")) &&
  (isUndefinedJS (getField v "steps") || isNumberType (getField v "steps")) &&
  (isUndefinedJS (getField v "n") || isNumberType (getField v "n")) &&
  (isUndefinedJS (getField v "format") ||
    (strictEqStr (getField v "format") "png" ||
     strictEqStr (getField v "format") "jpg" ||
     strictEqStr (getField v "format") "svg"))

/-- The reported filepath of image `index`. -/
def imageFilepath (cfg : ImgCfg) (env : CallEnv) (index : ℕ) : String :=
  filepathOf cfg.outDir cfg.fmt (env.timeAt index) index

/-- Whether an RPC outcome is a success. -/
def resultIsOk : Except HandlerError (List ProcessedImageResult) → Bool
  | .ok _ => true
  | .error _ => false

/-! ### Concrete fixtures used to evaluate the model -/

/-- A benign environment: one decodable 1024×768 image from the API, clock
fixed at 5, all writes succeed, empty initial filesystem. -/
def env0 : CallEnv :=
  ⟨"", id, fun _ => false, Except.ok [Except.ok ⟨1024, 768⟩], fun _ => 5,
   fun _ => none, fun _ => none⟩

/-- Like `env0` but the API returns two images. -/
def env6 : CallEnv :=
  ⟨"", id, fun _ => false,
   Except.ok [Except.ok ⟨1024, 768⟩, Except.ok ⟨1024, 768⟩], fun _ => 5,
   fun _ => none, fun _ => none⟩

/-- The 1024×768 image `env0` serves. -/
def imgDefault : Image := ⟨1024, 768⟩

/-- Minimal valid arguments. -/
def promptArgs : JSValue := JSValue.vObj [("prompt", JSValue.vStr "p")]

/-- Valid-typed arguments whose prompt is the empty string. -/
def emptyPromptArgs : JSValue := JSValue.vObj [("prompt", JSValue.vStr "")]

/-- Valid arguments with `width: 0` (falsy) and `height: 500`. -/
def widthZeroArgs : JSValue :=
  JSValue.vObj [("prompt", JSValue.vStr "p"), ("width", JSValue.vNum 0),
                ("height", JSValue.vNum 500)]

/-- Valid arguments with nonzero numeric dimensions below the defaults. -/
def smallClampArgs : JSValue :=
  JSValue.vObj [("prompt", JSValue.vStr "p"), ("width", JSValue.vNum 100),
                ("height", JSValue.vNum 300)]

/-- Valid arguments with both requested dimensions below 256. -/
def bothSmallArgs : JSValue :=
  JSValue.vObj [("prompt", JSValue.vStr "p"), ("width", JSValue.vNum 100),
                ("height", JSValue.vNum 50)]

/-- Valid arguments requesting svg output. -/
def svgArgs : JSValue :=
  JSValue.vObj [("prompt", JSValue.vStr "p"), ("format", JSValue.vStr "svg")]

/-- Valid svg-format arguments whose output directory itself contains the
substring `.svg`. -/
def svgDirArgs : JSValue :=
  JSValue.vObj [("prompt", JSValue.vStr "p"), ("format", JSValue.vStr "svg"),
                ("outputDir", JSValue.vStr "/a/.svg")]

/-- Valid svg-format arguments with `width: 100`, so the resize branch runs
before persistence. -/
def svgSmallArgs : JSValue :=
  JSValue.vObj [("prompt", JSValue.vStr "p"), ("format", JSValue.vStr "svg"),
                ("width", JSValue.vNum 100)]

/-- The write the svg call with `width: 100` performs against `env0`: PNG bytes
of the resized 100×75 image, at the `.png`-replaced path. -/
def fwSvgSmall : FileWrite :=
  ⟨"/output/image_5_0.png", Encoding.pngEnc, ⟨100, 75⟩⟩

/-- The per-image trace of the svg call with `width: 100` against `env0`. -/
def tSvgSmall : ImageTrace :=
  ⟨some (100, 75), some fwSvgSmall, true, some "/output/image_5_0.svg"⟩

/-- The two-image payload list `env6` serves. -/
def payloadsTwo : List (Except String Image) :=
  [Except.ok imgDefault, Except.ok imgDefault]

/-- The results a defaulted two-image call against `env6` produces. -/
def resultsTwo : List ProcessedImageResult :=
  [⟨"/output/image_5_0.png", "image_5_0.png", 1024, 768, 1024, 768⟩,
   ⟨"/output/image_5_1.png", "image_5_1.png", 1024, 768, 1024, 768⟩]

/-! ### Supporting lemmas about the decimal rendering -/

/-- Decimal decoding of a digit character list (left fold). -/
def decodeDigits (l : List Char) : ℕ :=
  l.foldl (fun acc c => acc * 10 + (c.toNat - 48)) 0

theorem digitChar_toNat {d : ℕ} (hd : d < 10) : (digitChar d).toNat - 48 = d := by
  interval_cases d <;> rfl

theorem digitChar_mem (d : ℕ) :
    digitChar d ∈ ['0', '1', '2', '3', '4', '5', '6', '7', '8', '9'] := by
  unfold digitChar
  split <;> simp

theorem decodeDigits_append_singleton (l : List Char) (c : Char) :
    decodeDigits (l ++ [c]) = decodeDigits l * 10 + (c.toNat - 48) := by
  simp [decodeDigits, List.foldl_append]

theorem natStrAux_decode : ∀ (fuel m : ℕ), m ≤ fuel →
    decodeDigits (natStrAux fuel m) = m := by
  intro fuel
  induction fuel with
  | zero =>
    intro m hm
    interval_cases m
    rfl
  | succ fuel ih =>
    intro m hm
    match m with
    | 0 => rfl
    | n + 1 =>
      rw [natStrAux, decodeDigits_append_singleton,
        ih ((n + 1) / 10) (by omega), digitChar_toNat (Nat.mod_lt _ (by omega))]
      omega

theorem natStr_decode (n : ℕ) : decodeDigits (natStr n).data = n := by
  unfold natStr
  split
  · subst n
    rfl
  · exact natStrAux_decode n n le_rfl

theorem natStr_injective {a b : ℕ} (h : natStr a = natStr b) : a = b := by
  have := congrArg (fun s => decodeDigits s.data) h
  simpa [natStr_decode] using this

theorem natStrAux_chars : ∀ (fuel m : ℕ) (c : Char), c ∈ natStrAux fuel m →
    c ∈ ['0', '1', '2', '3', '4', '5', '6', '7', '8', '9'] := by
  intro fuel
  induction fuel with
  | zero => intro m c hc; simp [natStrAux] at hc
  | succ fuel ih =>
    intro m c hc
    match m with
    | 0 => simp [natStrAux] at hc
    | n + 1 =>
      rw [natStrAux] at hc
      rcases List.mem_append.mp hc with h' | h'
      · exact ih _ _ h'
      · simp at h'
        subst h'
        exact digitChar_mem _

theorem natStr_chars (n : ℕ) (c : Char) (hc : c ∈ (natStr n).data) :
    c ∈ ['0', '1', '2', '3', '4', '5', '6', '7', '8', '9'] := by
  unfold natStr at hc
  split at hc
  · simp at hc
    subst hc
    simp
  · exact natStrAux_chars n n c hc

theorem natStr_no_underscore (n : ℕ) (c : Char) (hc : c ∈ (natStr n).data) :
    c ≠ '_' := by
  have := natStr_chars n c hc
  fin_cases this <;> decide

/-! ### Supporting lemmas about first-occurrence replacement -/

theorem replaceFirstAux_ne (pat rep : List Char)
    (hlen : rep.length = pat.length) (hne : rep ≠ pat) :
    ∀ l : List Char, pat <:+: l → replaceFirstAux pat rep l ≠ l := by
  intro l
  induction l with
  | nil =>
    intro hinf
    have hp : pat = [] := List.infix_nil.mp hinf
    have : rep = [] := List.length_eq_zero.mp (by rw [hlen, hp]; rfl)
    exact absurd (this.trans hp.symm) hne
  | cons c cs ih =>
    intro hinf
    rw [replaceFirstAux]
    split
    · rename_i hpre
      have hpfx : pat <+: c :: cs := List.isPrefixOf_iff_prefix.mp hpre
      obtain ⟨t, ht⟩ := hpfx
      intro heq
      rw [← ht, List.drop_left] at heq
      exact hne (List.append_cancel_right heq)
    · rename_i hpre
      have hnpfx : ¬ pat <+: c :: cs := fun h =>
        hpre (List.isPrefixOf_iff_prefix.mpr h)
      have hcs : pat <:+: cs := (List.infix_cons_iff.mp hinf).resolve_left hnpfx
      intro heq
      injection heq with _ heq'
      exact ih hcs heq'

theorem replaceFirst_data (s pat rep : String) :
    (replaceFirst s pat rep).data = replaceFirstAux pat.data rep.data s.data := rfl

theorem replaceFirst_svg_ne (s : String) (h : (".svg" : String).data <:+: s.data) :
    replaceFirst s ".svg" ".png" ≠ s := by
  intro heq
  have hd := congrArg String.data heq
  rw [replaceFirst_data] at hd
  exact replaceFirstAux_ne (".svg" : String).data (".png" : String).data
    (by decide) (by decide) s.data h hd

/-! ### Extraction of the index from a generated filename -/

theorem eq_of_append_cons_eq {c : Char} :
    ∀ (x y u v : List Char), c ∉ x → c ∉ y →
      x ++ c :: u = y ++ c :: v → x = y ∧ u = v := by
  intro x
  induction x with
  | nil =>
    intro y u v _ hy h
    match y with
    | [] => simpa using h
    | b :: ys =>
      simp only [List.nil_append, List.cons_append, List.cons.injEq] at h
      exact absurd (h.1 ▸ List.mem_cons_self b ys) (h.1 ▸ hy)
  | cons a xs ih =>
    intro y u v hx hy h
    match y with
    | [] =>
      simp only [List.nil_append, List.cons_append, List.cons.injEq] at h
      exact absurd (h.1 ▸ List.mem_cons_self a xs) (h.1.symm ▸ hx)
    | b :: ys =>
      simp only [List.cons_append, List.cons.injEq] at h
      obtain ⟨hxy, huv⟩ := ih ys u v (fun hm => hx (List.mem_cons_of_mem a hm))
        (fun hm => hy (List.mem_cons_of_mem b hm)) h.2
      exact ⟨by rw [h.1, hxy], huv⟩

theorem filepathOf_inj (outDir : String) (fmt : ImgFormat)
    {t1 t2 i1 i2 : ℕ} (h : filepathOf outDir fmt t1 i1 = filepathOf outDir fmt t2 i2) :
    i1 = i2 := by
  have hd := congrArg String.data h
  simp only [filepathOf, filenameOf, String.data_append] at hd
  have hr := congrArg List.reverse hd
  simp only [List.reverse_append, ← List.append_assoc] at hr
  have hr2 := List.append_cancel_right
    (List.append_cancel_right (List.append_cancel_right hr))
  simp only [List.reverse_singleton, List.append_assoc, List.singleton_append] at hr2
  have hr3 := List.append_cancel_left hr2
  injection hr3 with _ hr4
  have := eq_of_append_cons_eq _ _ _ _
    (fun hm => natStr_no_underscore i1 _ (List.mem_reverse.mp hm) rfl)
    (fun hm => natStr_no_underscore i2 _ (List.mem_reverse.mp hm) rfl) hr4
  exact natStr_injective (String.ext (List.reverse_injective this.1))

/-! ### Supporting lemmas about the per-image pipeline -/

theorem persistStage_resizeCall (cfg : ImgCfg) (env : CallEnv) (fp fn : String)
    (rc : Option (ℚ × ℚ)) (buf : Image) :
    (persistStage cfg env fp fn rc buf).1.resizeCall = rc := by
  rcases hwe : env.writeError (writePathOf cfg.fmt fp) with _ | m <;>
    rcases hrd : (if writePathOf cfg.fmt fp = fp then some buf else env.existingFile fp)
      with _ | img <;>
    simp [persistStage, hwe, hrd]

theorem persistStage_write (cfg : ImgCfg) (env : CallEnv) (fp fn : String)
    (rc : Option (ℚ × ℚ)) (buf : Image) :
    (persistStage cfg env fp fn rc buf).1.write =
      some ⟨writePathOf cfg.fmt fp, encOf cfg.fmt, buf⟩ := by
  rcases hwe : env.writeError (writePathOf cfg.fmt fp) with _ | m <;>
    rcases hrd : (if writePathOf cfg.fmt fp = fp then some buf else env.existingFile fp)
      with _ | img <;>
    simp [persistStage, hwe, hrd]

theorem persistStage_readPath (cfg : ImgCfg) (env : CallEnv) (fp fn : String)
    (rc : Option (ℚ × ℚ)) (buf : Image) (q : String)
    (h : (persistStage cfg env fp fn rc buf).1.readPath = some q) : q = fp := by
  rcases hwe : env.writeError (writePathOf cfg.fmt fp) with _ | m
  · rcases hrd : (if writePathOf cfg.fmt fp = fp then some buf else env.existingFile fp)
      with _ | img <;> simp [persistStage, hwe, hrd] at h <;> exact h.symm
  · simp [persistStage, hwe] at h

theorem persistStage_ok (cfg : ImgCfg) (env : CallEnv) (fp fn : String)
    (rc : Option (ℚ × ℚ)) (buf : Image) (r : ProcessedImageResult)
    (h : (persistStage cfg env fp fn rc buf).2 = Except.ok r) :
    r.filepath = fp ∧ r.filename = fn ∧
    r.originalWidth = cfg.apiWidth ∧ r.originalHeight = cfg.apiHeight := by
  rcases hwe : env.writeError (writePathOf cfg.fmt fp) with _ | m
  · rcases hrd : (if writePathOf cfg.fmt fp = fp then some buf else env.existingFile fp)
      with _ | img
    · simp [persistStage, hwe, hrd] at h
    · simp [persistStage, hwe, hrd] at h
      rw [← h]
      exact ⟨rfl, rfl, rfl, rfl⟩
  · simp [persistStage, hwe] at h

theorem persistStage_svg_err (cfg : ImgCfg) (env : CallEnv) (fp fn : String)
    (rc : Option (ℚ × ℚ)) (buf : Image) (hf : cfg.fmt = ImgFormat.svg)
    (hex : ∀ q, env.existingFile q = none)
    (hsfx : (".svg" : String).data <:+: fp.data) :
    ∃ m, (persistStage cfg env fp fn rc buf).2 = Except.error m := by
  have hne : replaceFirst fp ".svg" ".png" ≠ fp := replaceFirst_svg_ne fp hsfx
  have hwp : writePathOf cfg.fmt fp = replaceFirst fp ".svg" ".png" := by
    rw [hf]
    rfl
  rcases hwe : env.writeError (replaceFirst fp ".svg" ".png") with _ | m
  · refine ⟨"Input file is missing: " ++ fp, ?_⟩
    simp [persistStage, hwp, hwe, hne, hex fp]
  · refine ⟨m, ?_⟩
    simp [persistStage, hwp, hwe]

theorem persistStage_svg_warn (cfg : ImgCfg) (env : CallEnv) (fp fn : String)
    (rc : Option (ℚ × ℚ)) (buf : Image) (hf : cfg.fmt = ImgFormat.svg)
    (hwe : env.writeError (writePathOf cfg.fmt fp) = none) :
    (persistStage cfg env fp fn rc buf).1.warned = true ∧
    (persistStage cfg env fp fn rc buf).1.readPath = some fp := by
  rw [hf] at hwe
  rcases hrd : (if writePathOf ImgFormat.svg fp = fp then some buf else env.existingFile fp)
    with _ | img <;>
    constructor <;> simp [persistStage, hf, hwe, hrd]

theorem computeTarget_both (cfg : ImgCfg) (img : Image)
    (_hw : cfg.requestWidth < 256) (hh : cfg.requestHeight < 256) :
    computeTarget cfg img =
      (((jsRound (cfg.requestHeight * ((img.width : ℚ) / (img.height : ℚ))) : ℤ) : ℚ),
       cfg.requestHeight) := by
  simp [computeTarget, hh]

theorem processImage_resize_isSome (cfg : ImgCfg) (env : CallEnv) (i : ℕ)
    (img : Image) :
    ((processImage cfg env i (Except.ok img)).1.resizeCall).isSome = true ↔
      (cfg.requestWidth < 256 ∨ cfg.requestHeight < 256) := by
  by_cases hP : cfg.requestWidth < 256 ∨ cfg.requestHeight < 256
  · have hc : (decide (cfg.requestWidth < 256) || decide (cfg.requestHeight < 256)) = true := by
      rcases hP with h | h <;> simp [h]
    rcases hsr : sharpResize (computeTarget cfg img).1 (computeTarget cfg img).2
      with m | buf <;>
      simp [processImage, hc, hsr, persistStage_resizeCall, hP]
  · have hc : (decide (cfg.requestWidth < 256) || decide (cfg.requestHeight < 256)) = false := by
      push_neg at hP
      simp [not_lt.mpr hP.1, not_lt.mpr hP.2]
    simp [processImage, hc, persistStage_resizeCall, hP]

theorem processImage_resize_target (cfg : ImgCfg) (env : CallEnv) (i : ℕ)
    (img : Image) (hw : cfg.requestWidth < 256) (hh : cfg.requestHeight < 256) :
    (processImage cfg env i (Except.ok img)).1.resizeCall =
      some (((jsRound (cfg.requestHeight * ((img.width : ℚ) / (img.height : ℚ))) : ℤ) : ℚ),
            cfg.requestHeight) := by
  have hc : (decide (cfg.requestWidth < 256) || decide (cfg.requestHeight < 256)) = true := by
    simp [hw]
  have hct := computeTarget_both cfg img hw hh
  rcases hsr : sharpResize
      ((jsRound (cfg.requestHeight * ((img.width : ℚ) / (img.height : ℚ))) : ℤ) : ℚ)
      cfg.requestHeight with m | buf <;>
    simp [processImage, hc, hct, hsr, persistStage_resizeCall]

theorem processImage_write_noresize (cfg : ImgCfg) (env : CallEnv) (i : ℕ)
    (img : Image) (h : ¬(cfg.requestWidth < 256 ∨ cfg.requestHeight < 256)) :
    (processImage cfg env i (Except.ok img)).1.write =
      some ⟨writePathOf cfg.fmt (imageFilepath cfg env i), encOf cfg.fmt, img⟩ := by
  have hc : (decide (cfg.requestWidth < 256) || decide (cfg.requestHeight < 256)) = false := by
    push_neg at h
    simp [not_lt.mpr h.1, not_lt.mpr h.2]
  simp [processImage, hc, persistStage_write, imageFilepath]

theorem processImage_ok (cfg : ImgCfg) (env : CallEnv) (i : ℕ)
    (p : Except String Image) (r : ProcessedImageResult)
    (h : (processImage cfg env i p).2 = Except.ok r) :
    r.filepath = imageFilepath cfg env i ∧
    r.filename = filenameOf cfg.fmt (env.timeAt i) i ∧
    r.originalWidth = cfg.apiWidth ∧ r.originalHeight = cfg.apiHeight := by
  cases hb : (decide (cfg.requestWidth < 256) || decide (cfg.requestHeight < 256)) with
  | false =>
    match p with
    | .error m => simp [processImage, hb] at h
    | .ok img =>
      simp only [processImage, hb, Bool.false_eq_true, if_false] at h
      exact persistStage_ok _ _ _ _ _ _ _ h
  | true =>
    match p with
    | .error m => simp [processImage, hb] at h
    | .ok img =>
      rcases hsr : sharpResize (computeTarget cfg img).1 (computeTarget cfg img).2
        with m | buf
      · simp [processImage, hb, hsr] at h
      · simp only [processImage, hb, if_true, hsr] at h
        exact persistStage_ok _ _ _ _ _ _ _ h

theorem filepathOf_svg_suffix (d : String) (ts i : ℕ) :
    (".svg" : String).data <:+: (filepathOf d ImgFormat.svg ts i).data := by
  have h : (filepathOf d ImgFormat.svg ts i).data =
      (d.data ++ ("/" : String).data ++ ("image_" : String).data ++
        (natStr ts).data ++ ("_" : String).data ++ (natStr i).data) ++
        (".svg" : String).data := by
    simp [filepathOf, filenameOf, extString, String.data_append, List.append_assoc]
  rw [h]
  exact (List.suffix_append _ _).isInfix

theorem processImage_svg_err (cfg : ImgCfg) (env : CallEnv) (i : ℕ)
    (p : Except String Image) (hf : cfg.fmt = ImgFormat.svg)
    (hex : ∀ q, env.existingFile q = none) :
    ∃ m, (processImage cfg env i p).2 = Except.error m := by
  have hsfx : (".svg" : String).data <:+:
      (filepathOf cfg.outDir cfg.fmt (env.timeAt i) i).data := by
    rw [hf]
    exact filepathOf_svg_suffix ..
  cases hb : (decide (cfg.requestWidth < 256) || decide (cfg.requestHeight < 256)) with
  | false =>
    match p with
    | .error m => exact ⟨m, by simp [processImage, hb]⟩
    | .ok img =>
      obtain ⟨m, hm⟩ := persistStage_svg_err cfg env
        (filepathOf cfg.outDir cfg.fmt (env.timeAt i) i)
        (filenameOf cfg.fmt (env.timeAt i) i) none img hf hex hsfx
      exact ⟨m, by simp only [processImage, hb, Bool.false_eq_true, if_false]; exact hm⟩
  | true =>
    match p with
    | .error m => exact ⟨m, by simp [processImage, hb]⟩
    | .ok img =>
      rcases hsr : sharpResize (computeTarget cfg img).1 (computeTarget cfg img).2
        with m | buf
      · exact ⟨m, by simp [processImage, hb, hsr]⟩
      · obtain ⟨m, hm⟩ := persistStage_svg_err cfg env
          (filepathOf cfg.outDir cfg.fmt (env.timeAt i) i)
          (filenameOf cfg.fmt (env.timeAt i) i) (some (computeTarget cfg img)) buf hf hex hsfx
        exact ⟨m, by simp only [processImage, hb, if_true, hsr]; exact hm⟩

theorem processImage_svg_write_read (cfg : ImgCfg) (env : CallEnv) (i : ℕ)
    (p : Except String Image) (hf : cfg.fmt = ImgFormat.svg)
    (fw : FileWrite) (q : String)
    (hw : (processImage cfg env i p).1.write = some fw)
    (hr : (processImage cfg env i p).1.readPath = some q) :
    fw.path ≠ q ∧ fw.enc = Encoding.pngEnc := by
  have hsfx' : (".svg" : String).data <:+:
      (filepathOf cfg.outDir ImgFormat.svg (env.timeAt i) i).data :=
    filepathOf_svg_suffix ..
  have hkey : ∀ rc buf,
      (persistStage cfg env (filepathOf cfg.outDir cfg.fmt (env.timeAt i) i)
        (filenameOf cfg.fmt (env.timeAt i) i) rc buf).1.write = some fw →
      (persistStage cfg env (filepathOf cfg.outDir cfg.fmt (env.timeAt i) i)
        (filenameOf cfg.fmt (env.timeAt i) i) rc buf).1.readPath = some q →
      fw.path ≠ q ∧ fw.enc = Encoding.pngEnc := by
    intro rc buf hw' hr'
    have hq := persistStage_readPath _ _ _ _ _ _ _ hr'
    subst hq
    rw [persistStage_write] at hw'
    injection hw' with hw'
    subst hw'
    constructor
    · show writePathOf cfg.fmt _ ≠ _
      rw [hf]
      exact replaceFirst_svg_ne _ hsfx'
    · show encOf cfg.fmt = _
      simp [hf, encOf]
  cases hb : (decide (cfg.requestWidth < 256) || decide (cfg.requestHeight < 256)) with
  | false =>
    match p with
    | .error m => simp [processImage, hb] at hw
    | .ok img =>
      simp only [processImage, hb, Bool.false_eq_true, if_false] at hw hr
      exact hkey none img hw hr
  | true =>
    match p with
    | .error m => simp [processImage, hb] at hw
    | .ok img =>
      rcases hsr : sharpResize (computeTarget cfg img).1 (computeTarget cfg img).2
        with m | buf
      · simp [processImage, hb, hsr] at hw
      · simp only [processImage, hb, if_true, hsr] at hw hr
        exact hkey (some (computeTarget cfg img)) buf hw hr

/-! ### Supporting lemmas about `processAll` and `collectAll` -/

theorem processAll_getElem? (cfg : ImgCfg) (env : CallEnv) :
    ∀ (ps : List (Except String Image)) (k i : ℕ),
      (processAll cfg env k ps)[i]? =
        (ps[i]?).map (fun p => processImage cfg env (k + i) p) := by
  intro ps
  induction ps with
  | nil => intro k i; simp [processAll]
  | cons p ps ih =>
    intro k i
    match i with
    | 0 => simp [processAll]
    | j + 1 =>
      rw [processAll]
      have h1 : k + 1 + j = k + (j + 1) := by omega
      simp only [List.getElem?_cons_succ, ih (k + 1) j, h1]

theorem processAll_length (cfg : ImgCfg) (env : CallEnv) :
    ∀ (ps : List (Except String Image)) (k : ℕ),
      (processAll cfg env k ps).length = ps.length := by
  intro ps
  induction ps with
  | nil => intro k; rfl
  | cons p ps ih => intro k; simp [processAll, ih]

theorem collectAll_ok_length {α : Type} :
    ∀ {l : List (Except String α)} {r : List α},
      collectAll l = Except.ok r → r.length = l.length := by
  intro l
  induction l with
  | nil =>
    intro r h
    injection h with h
    subst h
    rfl
  | cons x xs ih =>
    intro r h
    match x with
    | .error m => exact absurd h (by simp [collectAll])
    | .ok b =>
      rw [collectAll] at h
      match hx : collectAll xs with
      | .error m => rw [hx] at h; exact absurd h (by simp [Except.map])
      | .ok r' =>
        rw [hx] at h
        injection h with h
        subst h
        simp [ih hx]

theorem collectAll_ok_getElem? {α : Type} :
    ∀ {l : List (Except String α)} {r : List α},
      collectAll l = Except.ok r → ∀ i : ℕ, l[i]? = (r[i]?).map Except.ok := by
  intro l
  induction l with
  | nil =>
    intro r h i
    injection h with h
    subst h
    simp
  | cons x xs ih =>
    intro r h i
    match x with
    | .error m => exact absurd h (by simp [collectAll])
    | .ok b =>
      rw [collectAll] at h
      match hx : collectAll xs with
      | .error m => rw [hx] at h; exact absurd h (by simp [Except.map])
      | .ok r' =>
        rw [hx] at h
        injection h with h
        subst h
        match i with
        | 0 => simp
        | j + 1 => simpa using ih hx j

/-! ### Supporting lemmas about `handleCall` -/

theorem handleCall_apiCall (args : JSValue) (env : CallEnv)
    (hv : isValidGenerateImageArgs args = true) :
    (handleCall (some args) env).1.apiCall = some (apiParamsOf args) := by
  simp only [handleCall]
  rw [if_pos hv]
  rcases henv : env.apiResult with m | payloads
  · simp [henv]
  · rcases hcol : collectAll ((processAll (cfgOf args env) env 0 payloads).map Prod.snd)
      with m | rs <;> simp [henv, hcol]

theorem handleCall_invalid (rawArgs : Option JSValue) (env : CallEnv)
    (h : ∀ args, rawArgs = some args → isValidGenerateImageArgs args = false) :
    handleCall rawArgs env = (emptyTrace, Except.error HandlerError.invalidParams) := by
  match rawArgs with
  | none => rfl
  | some args =>
    simp only [handleCall]
    rw [if_neg (by simp [h args rfl])]

theorem handleCall_images (args : JSValue) (env : CallEnv)
    (payloads : List (Except String Image))
    (hv : isValidGenerateImageArgs args = true)
    (hapi : env.apiResult = Except.ok payloads) :
    (handleCall (some args) env).1.images =
      (processAll (cfgOf args env) env 0 payloads).map Prod.fst := by
  simp only [handleCall]
  rw [if_pos hv, hapi]
  rcases hcol : collectAll ((processAll (cfgOf args env) env 0 payloads).map Prod.snd)
    with m | rs <;> simp [hcol]

theorem handleCall_ok_iff (args : JSValue) (env : CallEnv)
    (payloads : List (Except String Image))
    (hv : isValidGenerateImageArgs args = true)
    (hapi : env.apiResult = Except.ok payloads) (rs : List ProcessedImageResult) :
    (handleCall (some args) env).2 = Except.ok rs ↔
      collectAll ((processAll (cfgOf args env) env 0 payloads).map Prod.snd) =
        Except.ok rs := by
  simp only [handleCall]
  rw [if_pos hv, hapi]
  rcases hcol : collectAll ((processAll (cfgOf args env) env 0 payloads).map Prod.snd)
    with m | rs' <;> simp [hcol]

theorem handleCall_err_form (args : JSValue) (env : CallEnv)
    (hv : isValidGenerateImageArgs args = true) (e : HandlerError)
    (h : (handleCall (some args) env).2 = Except.error e) :
    ∃ m, e = HandlerError.internalError ("Image generation failed: " ++ m) := by
  simp only [handleCall] at h
  rw [if_pos hv] at h
  rcases henv : env.apiResult with m | payloads
  · rw [henv] at h
    simp at h
    exact ⟨_, h.symm⟩
  · rw [henv] at h
    rcases hcol : collectAll ((processAll (cfgOf args env) env 0 payloads).map Prod.snd)
      with m | rs
    · simp [hcol] at h
      exact ⟨_, h.symm⟩
    · simp [hcol] at h

/-! ### Additional handler lemmas -/

theorem processImage_persist_noresize (cfg : ImgCfg) (env : CallEnv) (i : ℕ)
    (img : Image) (h : ¬(cfg.requestWidth < 256 ∨ cfg.requestHeight < 256)) :
    processImage cfg env i (Except.ok img) =
      persistStage cfg env (imageFilepath cfg env i)
        (filenameOf cfg.fmt (env.timeAt i) i) none img := by
  have hc : (decide (cfg.requestWidth < 256) || decide (cfg.requestHeight < 256)) = false := by
    push_neg at h
    simp [not_lt.mpr h.1, not_lt.mpr h.2]
  simp [processImage, hc, imageFilepath]

theorem handleCall_err_of_collect (args : JSValue) (env : CallEnv)
    (payloads : List (Except String Image)) (m : String)
    (hv : isValidGenerateImageArgs args = true)
    (hapi : env.apiResult = Except.ok payloads)
    (hcol : collectAll ((processAll (cfgOf args env) env 0 payloads).map Prod.snd) =
      Except.error m) :
    (handleCall (some args) env).2 =
      Except.error (HandlerError.internalError (wrapMessage m)) := by
  simp only [handleCall]
  rw [if_pos hv, hapi]
  simp [hcol]

/-! ### Claims -/

/-- Claim C7 (confirmed): the argument validator returns true exactly when its
input is a non-null object whose `prompt` is a string; whose `model` and
`outputDir`, if present, are strings; whose `width`, `height`, `steps` and `n`,
if present, are numbers (any number, no bounds checks); and whose `format`, if
present, is one of the literal strings `"png"`, `"jpg"`, `"svg"`. Any other
value is rejected. -/
theorem claim_C7 (v : JSValue) : isValidGenerateImageArgs v = specValidShape v := by
  unfold isValidGenerateImageArgs specValidShape
  simp only [Bool.and_assoc]
  simp [Bool.and_comm, Bool.and_left_comm]

/-- Claim C9 (confirmed): whenever the arguments are missing or fail
validation, the call fails with the invalid-parameters error and the trace is
empty: no API call, no directory creation, no per-image processing (hence no
file writes). -/
theorem claim_C9 (rawArgs : Option JSValue) (env : CallEnv)
    (h : ∀ args, rawArgs = some args → isValidGenerateImageArgs args = false) :
    (handleCall rawArgs env).2 = Except.error HandlerError.invalidParams ∧
    (handleCall rawArgs env).1.apiCall = none ∧
    (handleCall rawArgs env).1.mkdirPath = none ∧
    (handleCall rawArgs env).1.images = [] := by
  rw [handleCall_invalid rawArgs env h]
  exact ⟨rfl, rfl, rfl, rfl⟩

/-- Witness for C9: an argument object without `prompt` is rejected with no
side effects. -/
theorem claim_C9_witness :
    (handleCall (some (JSValue.vObj [])) env0).2 =
      Except.error HandlerError.invalidParams ∧
    (handleCall (some (JSValue.vObj [])) env0).1.apiCall = none ∧
    (handleCall (some (JSValue.vObj [])) env0).1.mkdirPath = none ∧
    (handleCall (some (JSValue.vObj [])) env0).1.images = [] :=
  claim_C9 (some (JSValue.vObj [])) env0
    (fun args h => by injection h with h; rw [← h]; rfl)

/-- Claim C8 is refuted on the code: a call whose `prompt` is the empty string
(all other fields well-typed) passes the validator — which only checks
`typeof prompt === 'string'` — so it is not rejected: the API call is made and
the call succeeds. -/
theorem claim_C8_counterexample :
    isValidGenerateImageArgs emptyPromptArgs = true ∧
    ((handleCall (some emptyPromptArgs) env0).1.apiCall).isSome = true ∧
    resultIsOk ((handleCall (some emptyPromptArgs) env0).2) = true := by
  refine ⟨rfl, ?_, ?_⟩ <;> with_unfolding_all decide

/-- Claim C8 (corrected): a call whose `prompt` is the empty string (all other
fields well-typed) passes validation — `prompt` is only required to be a
string, emptiness is not checked — and generation proceeds: the call is not
rejected as invalid-parameters and the external API is invoked with the empty
prompt. -/
theorem claim_C8_amended (args : JSValue) (env : CallEnv)
    (hp : getField args "prompt" = JSValue.vStr "")
    (hv : isValidGenerateImageArgs args = true) :
    (handleCall (some args) env).2 ≠ Except.error HandlerError.invalidParams ∧
    ∃ p, (handleCall (some args) env).1.apiCall = some p ∧ p.prompt = "" := by
  constructor
  · intro h
    obtain ⟨m, hm⟩ := handleCall_err_form args env hv _ h
    exact HandlerError.noConfusion hm
  · exact ⟨apiParamsOf args, handleCall_apiCall args env hv,
      by simp [apiParamsOf, promptString, hp]⟩

/-- Witness for the amended C8 at the empty-prompt fixture. -/
theorem claim_C8_amended_witness :
    (handleCall (some emptyPromptArgs) env0).2 ≠
      Except.error HandlerError.invalidParams ∧
    ∃ p, (handleCall (some emptyPromptArgs) env0).1.apiCall = some p ∧
      p.prompt = "" :=
  claim_C8_amended emptyPromptArgs env0 rfl rfl

/-- Claim C3 is refuted on the code at `width: 0`: the claim predicts an API
width of `max 256 0 = 256`, but `args.width || 1024` treats `0` as falsy, so
the API is called with width 1024. -/
theorem claim_C3_counterexample :
    getField widthZeroArgs "width" = JSValue.vNum 0 ∧
    ((handleCall (some widthZeroArgs) env0).1.apiCall).map ApiParams.width =
      some 1024 ∧
    ((handleCall (some widthZeroArgs) env0).1.apiCall).map ApiParams.width ≠
      some (max 256 0) := by
  refine ⟨rfl, ?_, ?_⟩ <;> with_unfolding_all decide

/-- Claim C3 (corrected): for every valid request, the API-bound width and
height are `max 256 w` and `max 256 h` of the defaulted requested dimensions,
where a provided nonzero numeric dimension is used as-is, while an absent or
zero dimension (zero being falsy under JavaScript `||`) is replaced by its
default (1024 for width, 768 for height) before clamping. -/
theorem claim_C3_amended (args : JSValue) (env : CallEnv)
    (hv : isValidGenerateImageArgs args = true) :
    ∃ p, (handleCall (some args) env).1.apiCall = some p ∧
      p.width = max 256 (numField args "width" 1024) ∧
      p.height = max 256 (numField args "height" 768) ∧
      (∀ w : ℚ, getField args "width" = JSValue.vNum w → w ≠ 0 →
        numField args "width" 1024 = w) ∧
      (∀ h : ℚ, getField args "height" = JSValue.vNum h → h ≠ 0 →
        numField args "height" 768 = h) ∧
      (getField args "width" = JSValue.vUndefined ∨
          getField args "width" = JSValue.vNum 0 →
        numField args "width" 1024 = 1024) ∧
      (getField args "height" = JSValue.vUndefined ∨
          getField args "height" = JSValue.vNum 0 →
        numField args "height" 768 = 768) := by
  refine ⟨apiParamsOf args, handleCall_apiCall args env hv, rfl, rfl, ?_, ?_, ?_, ?_⟩
  · intro w hw hne
    simp [numField, hw, hne]
  · intro h hh hne
    simp [numField, hh, hne]
  · rintro (hw | hw) <;> simp [numField, hw]
  · rintro (hh | hh) <;> simp [numField, hh]

/-- Witness for the amended C3 at `width: 100, height: 300`. -/
theorem claim_C3_amended_witness :
    ∃ p, (handleCall (some smallClampArgs) env0).1.apiCall = some p ∧
      p.width = max 256 (numField smallClampArgs "width" 1024) ∧
      p.height = max 256 (numField smallClampArgs "height" 768) ∧
      (∀ w : ℚ, getField smallClampArgs "width" = JSValue.vNum w → w ≠ 0 →
        numField smallClampArgs "width" 1024 = w) ∧
      (∀ h : ℚ, getField smallClampArgs "height" = JSValue.vNum h → h ≠ 0 →
        numField smallClampArgs "height" 768 = h) ∧
      (getField smallClampArgs "width" = JSValue.vUndefined ∨
          getField smallClampArgs "width" = JSValue.vNum 0 →
        numField smallClampArgs "width" 1024 = 1024) ∧
      (getField smallClampArgs "height" = JSValue.vUndefined ∨
          getField smallClampArgs "height" = JSValue.vNum 0 →
        numField smallClampArgs "height" 768 = 768) :=
  claim_C3_amended smallClampArgs env0 rfl

/-- Claim C1 (confirmed): for every valid request and decodable returned
image, the resize step is invoked iff the originally requested (pre-clamp,
`||`-defaulted) width or height is below 256; when neither is below 256, the
attempted file write carries the decoded image unresized (its API-returned
size). -/
theorem claim_C1 (args : JSValue) (env : CallEnv)
    (payloads : List (Except String Image)) (i : ℕ) (img : Image)
    (hv : isValidGenerateImageArgs args = true)
    (hapi : env.apiResult = Except.ok payloads)
    (hp : payloads[i]? = some (Except.ok img)) :
    ∃ t : ImageTrace,
      (handleCall (some args) env).1.images[i]? = some t ∧
      (t.resizeCall.isSome = true ↔
        (numField args "width" 1024 < 256 ∨ numField args "height" 768 < 256)) ∧
      (¬(numField args "width" 1024 < 256 ∨ numField args "height" 768 < 256) →
        ∃ fw, t.write = some fw ∧ fw.content = img) := by
  rw [handleCall_images args env payloads hv hapi, List.getElem?_map,
      processAll_getElem?, hp]
  refine ⟨(processImage (cfgOf args env) env (0 + i) (Except.ok img)).1,
    by simp, ?_, ?_⟩
  · exact processImage_resize_isSome (cfgOf args env) env (0 + i) img
  · intro hn
    exact ⟨_, processImage_write_noresize (cfgOf args env) env (0 + i) img hn, rfl⟩

/-- Witness for C1 at the defaulted request (1024×768, no resize). -/
theorem claim_C1_witness :
    ∃ t : ImageTrace,
      (handleCall (some promptArgs) env0).1.images[0]? = some t ∧
      (t.resizeCall.isSome = true ↔
        (numField promptArgs "width" 1024 < 256 ∨
         numField promptArgs "height" 768 < 256)) ∧
      (¬(numField promptArgs "width" 1024 < 256 ∨
         numField promptArgs "height" 768 < 256) →
        ∃ fw, t.write = some fw ∧ fw.content = imgDefault) :=
  claim_C1 promptArgs env0 [Except.ok imgDefault] 0 imgDefault rfl rfl rfl

/-- Claim C2 (confirmed): when both requested dimensions are below 256, the
second (height) branch overwrites the first: the resize target is
`(round(requestedHeight * aspect), requestedHeight)` with
`aspect = decodedWidth / decodedHeight`. The hypothesis `0 < img.height`
keeps the rational model aligned with JavaScript (a zero decoded height would
give an infinite aspect ratio, outside the rational model). -/
theorem claim_C2 (args : JSValue) (env : CallEnv)
    (payloads : List (Except String Image)) (i : ℕ) (img : Image)
    (hv : isValidGenerateImageArgs args = true)
    (hapi : env.apiResult = Except.ok payloads)
    (hp : payloads[i]? = some (Except.ok img))
    (hw : numField args "width" 1024 < 256)
    (hh : numField args "height" 768 < 256)
    (_himg : 0 < img.height) :
    ∃ t : ImageTrace,
      (handleCall (some args) env).1.images[i]? = some t ∧
      t.resizeCall = some
        (((jsRound (numField args "height" 768 *
            ((img.width : ℚ) / (img.height : ℚ))) : ℤ) : ℚ),
         numField args "height" 768) := by
  rw [handleCall_images args env payloads hv hapi, List.getElem?_map,
      processAll_getElem?, hp]
  exact ⟨(processImage (cfgOf args env) env (0 + i) (Except.ok img)).1, by simp,
    processImage_resize_target (cfgOf args env) env (0 + i) img hw hh⟩

/-- Witness for C2 at `width: 100, height: 50` against a 1024×768 image. -/
theorem claim_C2_witness :
    ∃ t : ImageTrace,
      (handleCall (some bothSmallArgs) env0).1.images[0]? = some t ∧
      t.resizeCall = some
        (((jsRound (numField bothSmallArgs "height" 768 *
            ((imgDefault.width : ℚ) / (imgDefault.height : ℚ))) : ℤ) : ℚ),
         numField bothSmallArgs "height" 768) :=
  claim_C2 bothSmallArgs env0 [Except.ok imgDefault] 0 imgDefault rfl rfl rfl
    (by with_unfolding_all decide) (by with_unfolding_all decide) (by decide)

/-- Claim C4 is refuted on the code as stated: with `outputDir: "/a/.svg"`,
the svg write replaces the FIRST occurrence of `.svg` — inside the directory
component — so the file lands at `/a/.png/image_5_0.svg`, not at the path with
the `.svg` extension substituted by `.png`. -/
theorem claim_C4_counterexample :
    (((handleCall (some svgDirArgs) env0).1.images[0]?.bind ImageTrace.write).map
        FileWrite.path) = some "/a/.png/image_5_0.svg" ∧
    ("/a/.png/image_5_0.svg" : String) ≠ "/a/.svg/image_5_0.png" := by
  constructor
  · with_unfolding_all decide
  · decide

/-- Every svg per-image closure that records a `toFile` write (i.e. reached
the persistence step, through either the resize or the no-resize branch, with
the write succeeding) wrote PNG bytes at the first-`.svg`-occurrence-replaced
path, emitted the warning, and re-read the reported `.svg` filepath. -/
theorem processImage_svg_persist (cfg : ImgCfg) (env : CallEnv) (i : ℕ)
    (p : Except String Image) (hf : cfg.fmt = ImgFormat.svg)
    (hwe : ∀ q, env.writeError q = none) (fw : FileWrite)
    (hw : (processImage cfg env i p).1.write = some fw) :
    fw.enc = Encoding.pngEnc ∧
    fw.path = replaceFirst (filepathOf cfg.outDir cfg.fmt (env.timeAt i) i)
      ".svg" ".png" ∧
    (processImage cfg env i p).1.warned = true ∧
    (processImage cfg env i p).1.readPath =
      some (filepathOf cfg.outDir cfg.fmt (env.timeAt i) i) := by
  have hwarn := fun (rc : Option (ℚ × ℚ)) (buf : Image) =>
    persistStage_svg_warn cfg env (filepathOf cfg.outDir cfg.fmt (env.timeAt i) i)
      (filenameOf cfg.fmt (env.timeAt i) i) rc buf hf (hwe _)
  have hkey : ∀ (rc : Option (ℚ × ℚ)) (buf : Image),
      (persistStage cfg env (filepathOf cfg.outDir cfg.fmt (env.timeAt i) i)
        (filenameOf cfg.fmt (env.timeAt i) i) rc buf).1.write = some fw →
      fw.enc = Encoding.pngEnc ∧
      fw.path = replaceFirst (filepathOf cfg.outDir cfg.fmt (env.timeAt i) i)
        ".svg" ".png" := by
    intro rc buf hw'
    rw [persistStage_write] at hw'
    injection hw' with hw'
    subst hw'
    constructor
    · show encOf cfg.fmt = _
      simp [hf, encOf]
    · show writePathOf cfg.fmt _ = _
      rw [hf]
      rfl
  cases hb : (decide (cfg.requestWidth < 256) || decide (cfg.requestHeight < 256)) with
  | false =>
    match p with
    | .error m => simp [processImage, hb] at hw
    | .ok img =>
      simp only [processImage, hb, Bool.false_eq_true, if_false] at hw ⊢
      exact ⟨(hkey none img hw).1, (hkey none img hw).2,
        (hwarn none img).1, (hwarn none img).2⟩
  | true =>
    match p with
    | .error m => simp [processImage, hb] at hw
    | .ok img =>
      rcases hsr : sharpResize (computeTarget cfg img).1 (computeTarget cfg img).2
        with m | buf
      · simp [processImage, hb, hsr] at hw
      · simp only [processImage, hb, if_true, hsr] at hw ⊢
        exact ⟨(hkey _ buf hw).1, (hkey _ buf hw).2,
          (hwarn _ buf).1, (hwarn _ buf).2⟩

/-- Claim C4 (corrected): for every svg-format call whose per-image processing
reaches the persistence step — a `toFile` write is recorded, whether or not
the resize branch ran, with writes succeeding — the write is PNG-encoded,
never vector content, at the path obtained from the reported `.svg` filepath
by replacing the first occurrence of the substring `.svg` with `.png` (which
is the extension substitution whenever the directory part contains no `.svg`),
the warning is emitted, and the final re-read targets the reported `.svg`
filepath. -/
theorem claim_C4_amended (args : JSValue) (env : CallEnv)
    (payloads : List (Except String Image)) (i : ℕ)
    (t : ImageTrace) (fw : FileWrite)
    (hv : isValidGenerateImageArgs args = true)
    (hfmt : getField args "format" = JSValue.vStr "svg")
    (hapi : env.apiResult = Except.ok payloads)
    (hwe : ∀ q, env.writeError q = none)
    (ht : (handleCall (some args) env).1.images[i]? = some t)
    (hwt : t.write = some fw) :
    fw.enc = Encoding.pngEnc ∧
    fw.path = replaceFirst
      (filepathOf (outDirOf args env) ImgFormat.svg (env.timeAt i) i)
      ".svg" ".png" ∧
    t.warned = true ∧
    t.readPath =
      some (filepathOf (outDirOf args env) ImgFormat.svg (env.timeAt i) i) := by
  have hf : (cfgOf args env).fmt = ImgFormat.svg := by
    simp [cfgOf, formatField, hfmt]
  rw [handleCall_images args env payloads hv hapi, List.getElem?_map,
      processAll_getElem?] at ht
  rcases hpl : payloads[i]? with _ | pl
  · rw [hpl] at ht
    simp at ht
  · rw [hpl] at ht
    simp at ht
    rw [← ht] at hwt ⊢
    have hall := processImage_svg_persist (cfgOf args env) env i pl hf hwe fw hwt
    rw [hf, show (cfgOf args env).outDir = outDirOf args env from rfl] at hall
    exact hall

/-- Witness for the amended C4: svg request with `width: 100`, which takes the
resize branch (target 100×75) and still reaches persistence. -/
theorem claim_C4_amended_witness :
    fwSvgSmall.enc = Encoding.pngEnc ∧
    fwSvgSmall.path = replaceFirst
      (filepathOf (outDirOf svgSmallArgs env0) ImgFormat.svg (env0.timeAt 0) 0)
      ".svg" ".png" ∧
    tSvgSmall.warned = true ∧
    tSvgSmall.readPath =
      some (filepathOf (outDirOf svgSmallArgs env0) ImgFormat.svg (env0.timeAt 0) 0) :=
  claim_C4_amended svgSmallArgs env0 [Except.ok imgDefault] 0 tSvgSmall fwSvgSmall
    rfl rfl rfl (fun q => rfl) (by with_unfolding_all decide) rfl

/-- Claim C5 (confirmed): for every svg-format call whose API call succeeded
with at least one image, against a filesystem with no pre-existing files, the
metadata re-read targets the reported `.svg` filepath while every attempted
write targets a different path with PNG bytes, so the call returns an internal
error and never a success — even though the PNG write is in the trace. -/
theorem claim_C5 (args : JSValue) (env : CallEnv)
    (payloads : List (Except String Image))
    (hv : isValidGenerateImageArgs args = true)
    (hfmt : getField args "format" = JSValue.vStr "svg")
    (hapi : env.apiResult = Except.ok payloads)
    (hne : payloads ≠ [])
    (hex : ∀ q, env.existingFile q = none) :
    (∃ m, (handleCall (some args) env).2 =
      Except.error (HandlerError.internalError ("Image generation failed: " ++ m))) ∧
    (∀ (i : ℕ) (t : ImageTrace),
      (handleCall (some args) env).1.images[i]? = some t →
      ∀ (fw : FileWrite) (q : String), t.write = some fw → t.readPath = some q →
        fw.path ≠ q ∧ fw.enc = Encoding.pngEnc) := by
  have hf : (cfgOf args env).fmt = ImgFormat.svg := by
    simp [cfgOf, formatField, hfmt]
  constructor
  · match payloads, hapi, hne with
    | [], _, hne => exact absurd rfl hne
    | p :: ps, hapi, _ =>
      obtain ⟨m, hm⟩ := processImage_svg_err (cfgOf args env) env 0 p hf hex
      have hcol : collectAll
          ((processAll (cfgOf args env) env 0 (p :: ps)).map Prod.snd) =
          Except.error m := by
        simp only [processAll, List.map_cons]
        rw [show (processImage (cfgOf args env) env 0 p).2 = Except.error m from hm]
        rfl
      exact ⟨if m = "" then "Unknown error" else m,
        handleCall_err_of_collect args env (p :: ps) m hv hapi hcol⟩
  · intro i t ht fw q hwt hrt
    rw [handleCall_images args env payloads hv hapi, List.getElem?_map,
        processAll_getElem?] at ht
    rcases hpl : payloads[i]? with _ | pl
    · rw [hpl] at ht
      simp at ht
    · rw [hpl] at ht
      simp at ht
      rw [← ht] at hwt hrt
      exact processImage_svg_write_read (cfgOf args env) env i pl hf fw q hwt hrt

/-- Witness for C5: the svg request against the benign one-image
environment. -/
theorem claim_C5_witness :
    (∃ m, (handleCall (some svgArgs) env0).2 =
      Except.error (HandlerError.internalError ("Image generation failed: " ++ m))) ∧
    (∀ (i : ℕ) (t : ImageTrace),
      (handleCall (some svgArgs) env0).1.images[i]? = some t →
      ∀ (fw : FileWrite) (q : String), t.write = some fw → t.readPath = some q →
        fw.path ≠ q ∧ fw.enc = Encoding.pngEnc) :=
  claim_C5 svgArgs env0 [Except.ok imgDefault] rfl rfl rfl (by simp)
    (fun q => rfl)

/-- Claim C6 (confirmed): a successful call returns exactly one result per API
image, in order — entry `i` reports the filepath generated for image `i` — and
the reported filepaths are pairwise distinct within the call (the decimal
index embedded after the last underscore disambiguates, whatever the
per-image timestamps are). -/
theorem claim_C6 (args : JSValue) (env : CallEnv)
    (payloads : List (Except String Image)) (rs : List ProcessedImageResult)
    (hv : isValidGenerateImageArgs args = true)
    (hapi : env.apiResult = Except.ok payloads)
    (hok : (handleCall (some args) env).2 = Except.ok rs) :
    rs.length = payloads.length ∧
    (∀ i : ℕ, i < payloads.length →
      (rs[i]?).map ProcessedImageResult.filepath =
        some (filepathOf (outDirOf args env) (formatField args) (env.timeAt i) i)) ∧
    (∀ (i j : ℕ) (ri rj : ProcessedImageResult),
      rs[i]? = some ri → rs[j]? = some rj → i ≠ j →
      ri.filepath ≠ rj.filepath) := by
  have hcol := (handleCall_ok_iff args env payloads hv hapi rs).mp hok
  have hlen : rs.length = payloads.length := by
    rw [collectAll_ok_length hcol, List.length_map, processAll_length]
  have key : ∀ (i : ℕ) (ri : ProcessedImageResult), rs[i]? = some ri →
      ri.filepath =
        filepathOf (outDirOf args env) (formatField args) (env.timeAt i) i := by
    intro i ri hri
    have hget := collectAll_ok_getElem? hcol i
    rw [List.getElem?_map, processAll_getElem?, hri] at hget
    rcases hpl : payloads[i]? with _ | pl
    · rw [hpl] at hget
      simp at hget
    · rw [hpl] at hget
      simp at hget
      have hfields := processImage_ok _ _ _ _ _ hget
      rw [hfields.1]
      simp [imageFilepath, cfgOf, Nat.zero_add]
  refine ⟨hlen, ?_, ?_⟩
  · intro i hi
    have hi' : i < rs.length := by rw [hlen]; exact hi
    have hsome : rs[i]? = some (rs[i]) := List.getElem?_eq_getElem hi'
    rw [hsome]
    simp [key i (rs[i]) hsome]
  · intro i j ri rj hri hrj hij heq
    exact hij (filepathOf_inj (outDirOf args env) (formatField args)
      (((key i ri hri).symm.trans heq).trans (key j rj hrj)))

/-- Witness for C6: a defaulted two-image call. -/
theorem claim_C6_witness :
    resultsTwo.length = payloadsTwo.length ∧
    (∀ i : ℕ, i < payloadsTwo.length →
      (resultsTwo[i]?).map ProcessedImageResult.filepath =
        some (filepathOf (outDirOf promptArgs env6) (formatField promptArgs)
          (env6.timeAt i) i)) ∧
    (∀ (i j : ℕ) (ri rj : ProcessedImageResult),
      resultsTwo[i]? = some ri → resultsTwo[j]? = some rj → i ≠ j →
      ri.filepath ≠ rj.filepath) :=
  claim_C6 promptArgs env6 payloadsTwo resultsTwo rfl rfl
    (by with_unfolding_all decide)

/-- Claim C10 (confirmed): after validation, an API failure yields the single
wrapped internal-error response; a successful result is never partial (exactly
one entry per API image); every surfaced error is an internal error whose
message interpolates an underlying message; and whenever the API succeeded,
every image's trace is present — per-image effects are not rolled back when
the call fails. -/
theorem claim_C10 (args : JSValue) (env : CallEnv)
    (hv : isValidGenerateImageArgs args = true) :
    (∀ m, env.apiResult = Except.error m →
      (handleCall (some args) env).2 =
        Except.error (HandlerError.internalError (wrapMessage m))) ∧
    (∀ payloads rs, env.apiResult = Except.ok payloads →
      (handleCall (some args) env).2 = Except.ok rs →
      rs.length = payloads.length) ∧
    (∀ e, (handleCall (some args) env).2 = Except.error e →
      ∃ m, e = HandlerError.internalError ("Image generation failed: " ++ m)) ∧
    (∀ payloads, env.apiResult = Except.ok payloads →
      ((handleCall (some args) env).1.images).length = payloads.length) := by
  refine ⟨?_, ?_, ?_, ?_⟩
  · intro m hm
    simp only [handleCall]
    rw [if_pos hv, hm]
  · intro payloads rs hapi hok
    have hcol := (handleCall_ok_iff args env payloads hv hapi rs).mp hok
    rw [collectAll_ok_length hcol, List.length_map, processAll_length]
  · exact handleCall_err_form args env hv
  · intro payloads hapi
    rw [handleCall_images args env payloads hv hapi, List.length_map,
      processAll_length]

/-- Witness for C10 at the minimal valid request. -/
theorem claim_C10_witness :
    (∀ m, env0.apiResult = Except.error m →
      (handleCall (some promptArgs) env0).2 =
        Except.error (HandlerError.internalError (wrapMessage m))) ∧
    (∀ payloads rs, env0.apiResult = Except.ok payloads →
      (handleCall (some promptArgs) env0).2 = Except.ok rs →
      rs.length = payloads.length) ∧
    (∀ e, (handleCall (some promptArgs) env0).2 = Except.error e →
      ∃ m, e = HandlerError.internalError ("Image generation failed: " ++ m)) ∧
    (∀ payloads, env0.apiResult = Except.ok payloads →
      ((handleCall (some promptArgs) env0).1.images).length = payloads.length) :=
  claim_C10 promptArgs env0 rfl

end TogetherMCP
